import Mathlib

/-!
Shallow embedding of the delivery engine of the Sumo Logic OTel exporter
(`pkg/exporter/sumologicexporter/fields.go`): metadata string rendering,
the incremental body builder (`appendAndSend`), the per-signal drain loops
(`sendLogs` / `sendMetrics`, which are textually identical up to the choice
of formatter and pipeline and are embedded once, polymorphically, over the
record type), the buffer push operations (`batchLog` / `batchMetric`), and
the HTTP response interpreter (`handleReceiverResponse`).

Machine integers of the Go source are embedded as `Nat`/`Int`; byte lengths
of ASCII payload strings are `String.length`.  The network transmission
performed by `sender.send` is embedded as an oracle `net : Nat → Bool`
giving the success of the k-th HTTP call of a drain; every call that the
engine makes is recorded in a `sends` trace so that theorems can speak about
which bodies were transmitted and with which outcome.
-/

namespace Sumo

/-! ## Metadata (`fields`) rendering, from `fields.go` lines 26-82 -/

def attributeKeySourceHost : String := "_sourceHost"

def attributeKeySourceName : String := "_sourceName"

def attributeKeySourceCategory : String := "_sourceCategory"

/-- Embeds the `strings.Replacer` built in `newFields`: the three patterns
`","`, `"="`, `"\n"` are single characters, so the replacer is a character
map sending `,` to `_`, `=` to `:` and a newline to `_`. -/
def sanitizeField (fld : String) : String :=
  ⟨fld.data.map fun c =>
    if c = ',' then '_' else if c = '=' then ':' else if c = '\n' then '_' else c⟩

/-- Lexicographic byte-order comparison on strings, embedding the ordering
used by Go's `sort.Strings` (UTF-8 byte order coincides with code-point
order). -/
def leChars : List Char → List Char → Bool
  | [], _ => true
  | _ :: _, [] => false
  | a :: as, b :: bs =>
    if a.toNat < b.toNat then true
    else if b.toNat < a.toNat then false
    else leChars as bs

def leStr (a b : String) : Bool := leChars a.data b.data

def insertSorted (x : String) : List String → List String
  | [] => [x]
  | y :: ys => if leStr x y then x :: y :: ys else y :: insertSorted x ys

/-- Embeds `sort.Strings` (ascending lexicographic sort) as insertion sort. -/
def sortStrings : List String → List String
  | [] => []
  | x :: xs => insertSorted x (sortStrings xs)

/-- One iteration of the `Range` loop of `fields.string`: skip the three
reserved source keys, skip entries whose rendered value is empty, and
otherwise collect the `sanitized-key=sanitized-value` entry. -/
def fieldsStep (acc : List String) (kv : String × String) : List String :=
  if kv.1 = attributeKeySourceCategory ∨ kv.1 = attributeKeySourceHost ∨
      kv.1 = attributeKeySourceName then acc
  else if kv.2.length = 0 then acc
  else acc ++ [sanitizeField kv.1 ++ "=" ++ sanitizeField kv.2]

/-- The entries `fields.string` keeps: non-reserved keys whose rendered
value is non-empty. -/
def fieldsKeep (kv : String × String) : Bool :=
  if kv.1 = attributeKeySourceCategory ∨ kv.1 = attributeKeySourceHost ∨
      kv.1 = attributeKeySourceName then false
  else if kv.2.length = 0 then false
  else true

/-- Embeds the `Range` loop of `fields.string`: iterate the attribute map in
order, collecting via `fieldsStep`.  An attribute map is embedded as an
association list whose values are the `AsString` renderings of the attribute
values. -/
def renderedFields (attrs : List (String × String)) : List String :=
  attrs.foldl fieldsStep []

/-- Embeds `fields.string` (`fields.go` lines 48-77): collect the rendered
`key=value` entries, sort them ascending, join with `", "`. -/
def fieldsString (attrs : List (String × String)) : String :=
  String.intercalate ", " (sortStrings (renderedFields attrs))

/-! ## The body builder: `appendAndSend` (`fields.go` lines 643-681) -/

/-- Embeds `appendResponse` from `fields.go` lines 127-132. -/
structure appendResponse where
  sent : Bool
  appended : Bool
deriving DecidableEq, Repr

/-- Embeds `newAppendResponse` (`fields.go` lines 190-194): `sent` is the zero value
`false`, `appended` starts `true`. -/
def newAppendResponse : appendResponse :=
  { sent := false, appended := true }

/-- Embeds `strings.Builder.WriteString` of the Go standard library: appends
to the builder contents and, per its documented contract, always returns a
nil error (the second component is the returned error, always `none`). -/
def builderWriteString (b s : String) : String × Option String :=
  (b ++ s, none)

/-- Result of one `appendAndSend` call: the `appendResponse`, the builder
contents after the call, the accumulated (`multierr`) error list, and the
trace of network transmissions made during the call, each entry carrying the
transmitted body and the success of that HTTP call. -/
structure AppendOut where
  ar : appendResponse
  body : String
  errs : List String
  sends : List (String × Bool)
deriving DecidableEq, Repr

/-- Embeds `sender.appendAndSend` (`fields.go` lines 643-681).
`maxRequestBodySize` is `s.config.MaxRequestBodySize`; `netOk` is the oracle
outcome of the one network call the function can make (`s.send`); `line` and
`body` are the formatted line and the builder contents.
Mirrors the source: (1) if the body is non-empty and
`body.Len()+len(line) >= maxRequestBodySize`, mark `sent`, transmit the body
and reset it; (2) if the body is (still) non-empty, write a `"\n"` separator,
clearing `appended` if the write fails; (3) if `appended` still holds, write
the line itself, clearing `appended` if the write fails. -/
def appendAndSend (maxRequestBodySize : Nat) (netOk : Bool)
    (line body : String) : AppendOut :=
  let ar0 := newAppendResponse
  let s1 :
      appendResponse × String × List String × List (String × Bool) :=
    if 0 < body.length ∧ maxRequestBodySize ≤ body.length + line.length then
      ({ ar0 with sent := true },
       "",
       if netOk then [] else ["send failed"],
       [(body, netOk)])
    else
      (ar0, body, [], [])
  let s2 : appendResponse × String × List String :=
    if 0 < s1.2.1.length then
      match builderWriteString s1.2.1 "\n" with
      | (b, none) => (s1.1, b, s1.2.2.1)
      | (b, some e) => ({ s1.1 with appended := false }, b, s1.2.2.1 ++ [e])
    else
      (s1.1, s1.2.1, s1.2.2.1)
  let s3 : appendResponse × String × List String :=
    if s2.1.appended then
      match builderWriteString s2.2.1 line with
      | (b, none) => (s2.1, b, s2.2.2)
      | (b, some e) => ({ s2.1 with appended := false }, b, s2.2.2 ++ [e])
    else
      (s2.1, s2.2.1, s2.2.2)
  { ar := s3.1, body := s3.2.1, errs := s3.2.2, sends := s1.2.2.2 }

/-! ## The drain loop: `sendLogs` / `sendMetrics`
(`fields.go` lines 434-500 and 543-611)

The two functions are identical up to the record type, formatter switch and
pipeline constant, so they are embedded once, polymorphically in the record
type `α`, with the formatter outcome given by `fmt : α → Except String String`
(formatting is an external collaborator; `logToText` never fails, `logToJSON`
and an unknown format yield an error). -/

/-- The local state of one drain call: the `strings.Builder` body, the
`errs`, `droppedRecords` and `currentRecords` slices of the source, plus two
observation-only traces: `fmtFailed` records whose formatting failed (they
are appended to `droppedRecords` at the same moment in the source) and
`sends`, one entry per network call, carrying the records that had been
accumulated into the transmitted body, the body itself, and the success of
the call. -/
structure DrainState (α : Type) where
  body : String
  errs : List String
  droppedRecords : List α
  currentRecords : List α
  fmtFailed : List α
  sends : List (List α × String × Bool)
deriving Repr

def initDrain {α : Type} : DrainState α :=
  { body := "", errs := [], droppedRecords := [], currentRecords := [],
    fmtFailed := [], sends := [] }

/-- One iteration of the `for _, record := range s.logBuffer` loop of
`sendLogs` (`fields.go` lines 447-487) / `sendMetrics` (lines 556-598):
format the record (on failure drop it, record the error, continue);
otherwise call `appendAndSend` and, mirroring the source: on a non-nil
error, if `sent` add all of `currentRecords` to the dropped list and if not
`appended` add this record alone; then reset `currentRecords` if `sent` and
append this record to it if `appended`. -/
def drainStep {α : Type} (maxRequestBodySize : Nat) (net : Nat → Bool)
    (fmt : α → Except String String) (st : DrainState α) (record : α) :
    DrainState α :=
  match fmt record with
  | Except.error e =>
    { st with
      droppedRecords := st.droppedRecords ++ [record],
      errs := st.errs ++ [e],
      fmtFailed := st.fmtFailed ++ [record] }
  | Except.ok formattedLine =>
    let netOk := net st.sends.length
    let out := appendAndSend maxRequestBodySize netOk formattedLine st.body
    { body := out.body,
      errs := st.errs ++ out.errs,
      droppedRecords :=
        st.droppedRecords ++
          (if out.errs ≠ [] ∧ out.ar.sent = true then st.currentRecords
           else []) ++
          (if out.errs ≠ [] ∧ out.ar.appended = false then [record] else []),
      currentRecords :=
        (if out.ar.sent = true then [] else st.currentRecords) ++
          (if out.ar.appended = true then [record] else []),
      fmtFailed := st.fmtFailed,
      sends :=
        st.sends ++ out.sends.map fun p => (st.currentRecords, p.1, p.2) }

/-- The trailing flush after the loop (`fields.go` lines 489-494 / 600-605):
if the body is non-empty, send it once; on failure add every record still in
`currentRecords` to the dropped list. -/
def drainFinish {α : Type} (net : Nat → Bool) (st : DrainState α) :
    DrainState α :=
  if 0 < st.body.length then
    let netOk := net st.sends.length
    { st with
      sends := st.sends ++ [(st.currentRecords, st.body, netOk)],
      errs := if netOk then st.errs else st.errs ++ ["send failed"],
      droppedRecords :=
        if netOk then st.droppedRecords
        else st.droppedRecords ++ st.currentRecords }
  else st

/-- Embeds the line-oriented path of `sendLogs` / `sendMetrics`: run the
loop over the buffered records, then the trailing flush. -/
def sendLogs {α : Type} (maxRequestBodySize : Nat) (net : Nat → Bool)
    (fmt : α → Except String String) (records : List α) : DrainState α :=
  drainFinish net (records.foldl (drainStep maxRequestBodySize net fmt) initDrain)

/-- The returned pair of `sendLogs` / `sendMetrics`: the dropped records and
`multierr.Combine` of the collected errors (`nil` when no error occurred). -/
def drainResult {α : Type} (st : DrainState α) : List α × Option String :=
  (st.droppedRecords,
   if st.errs = [] then none else some (String.intercalate "; " st.errs))

/-! ## Buffer push: `batchLog` / `batchMetric` (`fields.go` lines 712-753) -/

/-- Embeds `maxBufferSize` (`fields.go` line 166). -/
def maxBufferSize : Nat := 1024 * 1024

/-- Embeds `sender.batchLog` (`fields.go` lines 714-724) and the textually
identical `sender.batchMetric` (lines 738-748): append the record to the
buffer; if the buffer now holds at least `maxBufferSize` records, drain it
synchronously (`sendLogs`), clear the buffer (`cleanLogsBuffer`) and return
the drain outcome; otherwise return `nil, nil`.
The result is `(new buffer, dropped records, error, network-call trace)`. -/
def batchLog {α : Type} (maxRequestBodySize : Nat) (net : Nat → Bool)
    (fmt : α → Except String String) (logBuffer : List α) (log : α) :
    List α × List α × Option String × List (List α × String × Bool) :=
  let buf := logBuffer ++ [log]
  if maxBufferSize ≤ buf.length then
    let st := sendLogs maxRequestBodySize net fmt buf
    ([], (drainResult st).1, (drainResult st).2, st.sends)
  else
    (buf, [], none, [])

/-! ## Response interpreter: `handleReceiverResponse`
(`fields.go` lines 257-344) -/

/-- Embeds `ReceiverResponseCore` (`fields.go` lines 264-269): the optional JSON
fields of a receiver response body.  A missing JSON field decodes to the Go
zero value (`0` / `""`). -/
structure ReceiverResponseCore where
  status : Int
  id : String
  code : String
  message : String
deriving DecidableEq, Repr

/-- One entry of the `errors` array of `ReceiverErrorResponse`. -/
structure ErrorsEntry where
  code : String
  message : String
deriving DecidableEq, Repr

/-- Embeds `ReceiverErrorResponse` (`fields.go` lines 303-309): the core fields
plus the nested `errors` array. -/
structure ReceiverErrorResponse where
  core : ReceiverResponseCore
  errors : List ErrorsEntry
deriving DecidableEq, Repr

/-- The Go zero value of `ReceiverErrorResponse`, the contents of
`rResponse` when no body is decoded. -/
def zeroErrorResponse : ReceiverErrorResponse :=
  { core := { status := 0, id := "", code := "", message := "" }, errors := [] }

/-- The inputs `handleReceiverResponse` reads from an `*http.Response`:
the numeric status code, the status line text (`resp.Status`, e.g.
`"404 Not Found"`), `resp.ContentLength`, the raw body text, and the outcome
of `json` decoding of the body into the expected structure (`none` when the
body does not decode; decoding into `ReceiverResponseCore` and into
`ReceiverErrorResponse` succeeds or fails together, since both tolerate
missing and unknown JSON fields). -/
structure HttpResponse where
  statusCode : Nat
  status : String
  contentLength : Int
  bodyRaw : String
  decoded : Option ReceiverErrorResponse

/-- The distinct error identities `send` can return from response handling:
the `errUnauthorized` sentinel (`fields.go` line 225), the decode failure
(`fmt.Errorf("failed to decode API response (status: %s): %s", ...)`), and
the hard failure (`fmt.Errorf("failed sending data: %s", ...)`).  The three
are pairwise distinct Go error values, embedded as distinct constructors. -/
inductive SendError where
  | unauthorized
  | decodeFailure (status bodyText : String)
  | failedSending (msg : String)
deriving DecidableEq, Repr

/-- A rendering of one `errors` entry, standing for Go's `%+v` formatting. -/
def errorsEntryRepr (e : ErrorsEntry) : String :=
  "\x7bCode:" ++ e.code ++ " Message:" ++ e.message ++ "\x7d"

/-- A rendering of the `errors` slice, standing for Go's `%+v` formatting. -/
def errorsRepr (l : List ErrorsEntry) : String :=
  "[" ++ String.intercalate " " (l.map errorsEntryRepr) ++ "]"

/-- The `errMsgs` slice built in the default branch of
`handleReceiverResponse` (`fields.go` lines 325-340): the status first, then
`id`, `code`, `message` and the nested `errors`, each appended only when
non-empty. -/
def receiverErrorMsgs (status : String) (r : ReceiverErrorResponse) :
    List String :=
  ["status: " ++ status] ++
    (if 0 < r.core.id.length then ["id: " ++ r.core.id] else []) ++
    (if 0 < r.core.code.length then ["code: " ++ r.core.code] else []) ++
    (if 0 < r.core.message.length then ["message: " ++ r.core.message]
     else []) ++
    (if 0 < r.errors.length then ["errors: " ++ errorsRepr r.errors] else [])

/-- The structured warning fields logged in the 200/204-with-body branch
(`fields.go` lines 286-296): the status plus `id`, `code`, `message` when
non-empty. -/
def coreWarnFields (status : String) (c : ReceiverResponseCore) :
    List String :=
  ["status: " ++ status] ++
    (if 0 < c.id.length then ["id: " ++ c.id] else []) ++
    (if 0 < c.code.length then ["code: " ++ c.code] else []) ++
    (if 0 < c.message.length then ["message: " ++ c.message] else [])

/-- Embeds `sender.handleReceiverResponse` (`fields.go` lines 257-344).
Returns the error (`none` for a nil Go error) together with the list of
warning log messages emitted.  Mirrors the source: a 200/204 with
`ContentLength == 0` is a silent success; a 200/204 otherwise decodes the
body, degrading a decode failure to a logged warning and otherwise logging
the diagnostic fields, returning nil either way; a 401 returns the
`errUnauthorized` sentinel; any other status decodes the body when
`ContentLength > 0` (an undecodable body is an error carrying the status and
the raw body text) and returns the joined `errMsgs` error. -/
def handleReceiverResponse (resp : HttpResponse) :
    Option SendError × List String :=
  if resp.contentLength = 0 ∧ (resp.statusCode = 200 ∨ resp.statusCode = 204)
  then
    (none, [])
  else if resp.statusCode = 200 ∨ resp.statusCode = 204 then
    match resp.decoded with
    | none =>
      (none, ["Error decoding receiver response: " ++ resp.bodyRaw])
    | some r =>
      (none,
       ["There was an issue sending data: " ++
         String.intercalate ", " (coreWarnFields resp.status r.core)])
  else if resp.statusCode = 401 then
    (some SendError.unauthorized, [])
  else
    let decodeOutcome :=
      if 0 < resp.contentLength then resp.decoded else some zeroErrorResponse
    match decodeOutcome with
    | none =>
      (some (SendError.decodeFailure resp.status resp.bodyRaw), [])
    | some r =>
      (some (SendError.failedSending
        ("failed sending data: " ++
          String.intercalate ", " (receiverErrorMsgs resp.status r))), [])

/-! ## Verification-side definitions for the drain invariants -/

/-- The records whose formatting or transmission failed are exactly the
dropped ones: a record is in `droppedRecords` iff it failed to format or was
accumulated into a transmitted body whose network call failed. -/
def DropExact {α : Type} (st : DrainState α) : Prop :=
  ∀ r, r ∈ st.droppedRecords ↔
    (r ∈ st.fmtFailed ∨ ∃ p ∈ st.sends, p.2.2 = false ∧ r ∈ p.1)

/-- Records accumulated into a successfully transmitted body are never
reported dropped. -/
def SentNotDropped {α : Type} (st : DrainState α) : Prop :=
  ∀ p ∈ st.sends, p.2.2 = true → ∀ r ∈ p.1, r ∉ st.droppedRecords

/-- All records the drain state is accounting for: format failures, the
groups accumulated into already-transmitted bodies, and the
currently-accumulating group. -/
def tracked {α : Type} (st : DrainState α) : List α :=
  st.fmtFailed ++ (st.sends.map fun p => p.1).flatten ++ st.currentRecords

/-- Decides whether a record's formatting fails. -/
def fmtFails {α : Type} (fmt : α → Except String String) (r : α) : Bool :=
  match fmt r with
  | Except.error _ => true
  | Except.ok _ => false

/-! ## Characterization lemmas -/

/-- Closed form of `appendAndSend`: either the threshold is met on a
non-empty body (flush, reset, then the line becomes the whole body) or the
line is appended behind a separator iff the body was non-empty. -/
theorem appendAndSend_eq (m : Nat) (ok : Bool) (line body : String) :
    appendAndSend m ok line body =
      if 0 < body.length ∧ m ≤ body.length + line.length then
        { ar := { sent := true, appended := true }, body := line,
          errs := if ok then [] else ["send failed"],
          sends := [(body, ok)] }
      else
        { ar := { sent := false, appended := true },
          body := (if 0 < body.length then body ++ "\n" else body) ++ line,
          errs := [], sends := [] } := by
  by_cases h : 0 < body.length ∧ m ≤ body.length + line.length
  · simp [appendAndSend, newAppendResponse, builderWriteString, h]
  · by_cases hb : 0 < body.length
    · have hm : ¬ m ≤ body.length + line.length := fun hm => h ⟨hb, hm⟩
      simp [appendAndSend, newAppendResponse, builderWriteString, h, hb, hm]
    · simp [appendAndSend, newAppendResponse, builderWriteString, h, hb]

/-- The in-memory writes of `appendAndSend` cannot fail, so `appended` is
`true` on every call. -/
theorem appendAndSend_appended (m : Nat) (netOk : Bool) (line body : String) :
    (appendAndSend m netOk line body).ar.appended = true := by
  rw [appendAndSend_eq]
  split_ifs <;> rfl

/-! ## C1 -/

/-- Counterexample to C1 as stated: with `maxSize = 3`, body `"a"` and line
`"b"`, the body length plus the line length plus one (for the leading
separator byte) meets `maxSize`, yet the call does not transmit
(`sent = false`): the source's threshold test `body.Len()+len(line) >=
maxSize` does not count the separator byte. -/
theorem appendAndSend_separator_counterexample :
    ¬(((appendAndSend 3 true "b" "a").ar.sent = true) ↔
      (0 < ("a" : String).length ∧
        3 ≤ ("a" : String).length + ("b" : String).length + 1)) := by
  decide

/-- C1 (amended): the accumulated body is transmitted (with `sent = true`)
iff the body is non-empty and the length of the body plus the length of the
line — not counting the separator byte — meets or exceeds `maxSize`; when it
is transmitted it is sent verbatim, once, and the body is reset before the
line is appended (so the body after the call is the line); otherwise no
transmission occurs during the call. -/
theorem appendAndSend_sent_iff_threshold (m : Nat) (netOk : Bool)
    (line body : String) :
    ((appendAndSend m netOk line body).ar.sent = true ↔
      0 < body.length ∧ m ≤ body.length + line.length)
    ∧ ((appendAndSend m netOk line body).ar.sent = true →
        (appendAndSend m netOk line body).sends = [(body, netOk)] ∧
        (appendAndSend m netOk line body).body = line)
    ∧ ((appendAndSend m netOk line body).ar.sent = false →
        (appendAndSend m netOk line body).sends = []) := by
  rw [appendAndSend_eq]
  by_cases h : 0 < body.length ∧ m ≤ body.length + line.length
  · simp [h]
  · simp [h]

/-- Witness for C1 (amended) at `maxSize = 2`, body `"a"`, line `"b"`. -/
theorem appendAndSend_sent_iff_threshold_witness :
    (appendAndSend 2 true "b" "a").ar.sent = true ∧
    (appendAndSend 2 true "b" "a").sends = [("a", true)] :=
  ⟨by decide,
   ((appendAndSend_sent_iff_threshold 2 true "b" "a").2.1 (by decide)).1⟩

/-! ## C2 -/

/-- C2: a line whose own length meets or exceeds `maxSize` is still appended
to an empty body: the call reports `appended = true` and `sent = false`,
makes no network call and returns no error, and the body afterwards is the
oversized line; the oversized body is transmitted by a later flush — the
next `appendAndSend` call on it transmits regardless of its line, and the
trailing flush of a drain transmits it when it is still the body at loop
end. -/
theorem appendAndSend_oversized_line_accepted (m : Nat) (netOk : Bool)
    (line : String) (h1 : 0 < m) (h2 : m ≤ line.length) :
    (appendAndSend m netOk line "").ar.appended = true
    ∧ (appendAndSend m netOk line "").ar.sent = false
    ∧ (appendAndSend m netOk line "").sends = []
    ∧ (appendAndSend m netOk line "").errs = []
    ∧ (appendAndSend m netOk line "").body = line
    ∧ (∀ (line' : String) (netOk' : Bool),
        (appendAndSend m netOk' line' line).ar.sent = true)
    ∧ (∀ (net : Nat → Bool) (st : DrainState Nat), st.body = line →
        (drainFinish net st).sends =
          st.sends ++ [(st.currentRecords, line, net st.sends.length)]) := by
  have hlen : 0 < line.length := lt_of_lt_of_le h1 h2
  refine ⟨?_, ?_, ?_, ?_, ?_, ?_, ?_⟩
  · rw [appendAndSend_eq]; simp
  · rw [appendAndSend_eq]; simp
  · rw [appendAndSend_eq]; simp
  · rw [appendAndSend_eq]; simp
  · rw [appendAndSend_eq]; simp
  · intro line' netOk'
    rw [appendAndSend_eq]
    have : 0 < line.length ∧ m ≤ line.length + line'.length :=
      ⟨hlen, le_trans h2 (Nat.le_add_right _ _)⟩
    simp [this]
  · intro net st hst
    rw [drainFinish, hst]
    simp [hlen]

/-- Witness for C2 at `maxSize = 3` and the oversized line `"abcd"`. -/
theorem appendAndSend_oversized_line_accepted_witness :
    0 < 3 ∧ 3 ≤ ("abcd" : String).length ∧
    (appendAndSend 3 true "abcd" "").ar.sent = false :=
  ⟨by decide, by decide,
   (appendAndSend_oversized_line_accepted 3 true "abcd" (by decide)
     (by decide)).2.1⟩

/-! ## C3 -/

/-- Counterexample to C3 as stated: with `maxSize = 1` a completed
`appendAndSend` call on an empty body leaves a body of length `2`, so the
accumulated body at rest can exceed the configured maximum (the oversized
single-line edge case). -/
theorem appendAndSend_body_bound_counterexample :
    1 < (appendAndSend 1 true "ab" "").body.length := by
  decide

/-- C3 (amended): provided every appended line is no longer than `maxSize`,
the accumulated body never exceeds `maxSize` at rest between appends: one
`appendAndSend` call starting from a body within the bound ends with a body
within the bound (the size is checked before mutating, flushing first when
needed). -/
theorem appendAndSend_body_bound (m : Nat) (netOk : Bool) (line body : String)
    (hline : line.length ≤ m) (hbody : body.length ≤ m) :
    (appendAndSend m netOk line body).body.length ≤ m := by
  rw [appendAndSend_eq]
  by_cases h : 0 < body.length ∧ m ≤ body.length + line.length
  · simpa [h] using hline
  · by_cases hb : 0 < body.length
    · have hm : ¬ m ≤ body.length + line.length := fun hm => h ⟨hb, hm⟩
      have hm' : body.length + line.length < m := Nat.lt_of_not_le hm
      have hnl : ("\n" : String).length = 1 := by decide
      rw [if_neg h, if_pos hb]
      simp only [String.length_append, hnl]
      omega
    · have hb0 : body.length = 0 := Nat.eq_zero_of_not_pos hb
      rw [if_neg h, if_neg hb]
      simp only [String.length_append]
      omega

/-- Witness for C3 (amended) at `maxSize = 5`, body `"c"`, line `"ab"`. -/
theorem appendAndSend_body_bound_witness :
    ("ab" : String).length ≤ 5 ∧ ("c" : String).length ≤ 5 ∧
    (appendAndSend 5 true "ab" "c").body.length ≤ 5 :=
  ⟨by decide, by decide,
   appendAndSend_body_bound 5 true "ab" "c" (by decide) (by decide)⟩

/-! ## C10 -/

/-- C10: every `appendAndSend` call returns `appended = true` — the two
branches clearing `appended` are unreachable because the string-builder
writes cannot fail — and consequently, in a drain-loop iteration whose
record formats successfully, the "this record alone is dropped" path is
never taken (the dropped list only ever gains the previously accumulated
group, on a failed flush) and the current record is always added to the
accumulating set. -/
theorem appendAndSend_appended_infallible :
    (∀ (m : Nat) (netOk : Bool) (line body : String),
      (appendAndSend m netOk line body).ar.appended = true)
    ∧ (∀ (m : Nat) (net : Nat → Bool) (fmt : Nat → Except String String)
        (st : DrainState Nat) (record : Nat) (line : String),
        fmt record = Except.ok line →
        (drainStep m net fmt st record).currentRecords =
          (if (appendAndSend m (net st.sends.length) line st.body).ar.sent
              = true
           then [] else st.currentRecords) ++ [record]
        ∧ (drainStep m net fmt st record).droppedRecords =
            st.droppedRecords ++
              (if (appendAndSend m (net st.sends.length) line st.body).errs
                    ≠ [] ∧
                  (appendAndSend m (net st.sends.length) line st.body).ar.sent
                    = true
               then st.currentRecords else [])) := by
  refine ⟨appendAndSend_appended, ?_⟩
  intro m net fmt st record line hfmt
  have happ := appendAndSend_appended m (net st.sends.length) line st.body
  constructor
  · simp [drainStep, hfmt, happ]
  · simp [drainStep, hfmt, happ]

/-- Witness for C10's loop part at a concrete formatter and state. -/
theorem appendAndSend_appended_infallible_witness :
    (fun _ : Nat => (Except.ok "x" : Except String String)) 7 = Except.ok "x" ∧
    (drainStep 10 (fun _ => true)
        (fun _ : Nat => (Except.ok "x" : Except String String))
        initDrain 7).currentRecords =
      (if (appendAndSend 10
            ((fun _ : Nat => true) (initDrain : DrainState Nat).sends.length)
            "x" (initDrain : DrainState Nat).body).ar.sent = true
       then [] else (initDrain : DrainState Nat).currentRecords) ++ [7] :=
  ⟨rfl,
   (appendAndSend_appended_infallible.2 10 (fun _ => true)
     (fun _ => Except.ok "x") initDrain 7 "x" rfl).1⟩


/-! ## C4 -/

/-- C4: every 401 response yields the distinguished `unauthorized` sentinel,
and no response with any other status code ever yields that sentinel, so the
unauthorized outcome is distinguishable from every other error kind. -/
theorem handleReceiverResponse_unauthorized (resp : HttpResponse) :
    (resp.statusCode = 401 →
      (handleReceiverResponse resp).1 = some SendError.unauthorized)
    ∧ (resp.statusCode ≠ 401 →
      (handleReceiverResponse resp).1 ≠ some SendError.unauthorized) := by
  constructor
  · intro h
    have h1 : ¬(resp.contentLength = 0 ∧
        (resp.statusCode = 200 ∨ resp.statusCode = 204)) := by
      rintro ⟨-, hh | hh⟩ <;> omega
    have h2 : ¬(resp.statusCode = 200 ∨ resp.statusCode = 204) := by
      rintro (hh | hh) <;> omega
    unfold handleReceiverResponse
    rw [if_neg h1, if_neg h2, if_pos h]
  · intro h
    unfold handleReceiverResponse
    by_cases h1 : resp.contentLength = 0 ∧
        (resp.statusCode = 200 ∨ resp.statusCode = 204)
    · rw [if_pos h1]
      simp
    · rw [if_neg h1]
      by_cases h2 : resp.statusCode = 200 ∨ resp.statusCode = 204
      · rw [if_pos h2]
        cases resp.decoded <;> simp
      · rw [if_neg h2, if_neg h]
        cases hd : (if 0 < resp.contentLength then resp.decoded
            else some zeroErrorResponse) <;> simp [hd]

/-- Witness for C4 at a concrete 401 response. -/
theorem handleReceiverResponse_unauthorized_witness :
    (handleReceiverResponse
      { statusCode := 401, status := "401 Unauthorized", contentLength := 0,
        bodyRaw := "", decoded := none }).1 = some SendError.unauthorized :=
  (handleReceiverResponse_unauthorized
    { statusCode := 401, status := "401 Unauthorized", contentLength := 0,
      bodyRaw := "", decoded := none }).1 rfl

/-! ## C5 -/

/-- C5: every 200 or 204 response yields a nil error — silently when the
body is empty (`ContentLength = 0`), and with a logged warning both when a
present body decodes (diagnostic fields logged) and when it fails to decode
(the failure degrades to a warning, never an error). -/
theorem handleReceiverResponse_2xx_nil (resp : HttpResponse)
    (h : resp.statusCode = 200 ∨ resp.statusCode = 204) :
    (handleReceiverResponse resp).1 = none
    ∧ (resp.contentLength = 0 → handleReceiverResponse resp = (none, []))
    ∧ (resp.contentLength ≠ 0 → (handleReceiverResponse resp).2 ≠ []) := by
  refine ⟨?_, ?_, ?_⟩
  · by_cases hc : resp.contentLength = 0
    · simp [handleReceiverResponse, hc, h]
    · unfold handleReceiverResponse
      rw [if_neg (fun hh => hc hh.1), if_pos h]
      cases resp.decoded <;> simp
  · intro hc
    simp [handleReceiverResponse, hc, h]
  · intro hc
    unfold handleReceiverResponse
    rw [if_neg (fun hh => hc hh.1), if_pos h]
    cases resp.decoded <;> simp

/-- Witness for C5 at a concrete 200 response with a present, undecodable
body. -/
theorem handleReceiverResponse_2xx_nil_witness :
    ((200 : Nat) = 200 ∨ (200 : Nat) = 204) ∧
    (handleReceiverResponse
      { statusCode := 200, status := "200 OK", contentLength := 2,
        bodyRaw := "xx", decoded := none }).1 = none :=
  ⟨Or.inl rfl,
   (handleReceiverResponse_2xx_nil
     { statusCode := 200, status := "200 OK", contentLength := 2,
       bodyRaw := "xx", decoded := none } (Or.inl rfl)).1⟩

/-! ## C6 -/

/-- C6: for every status other than 200, 204 and 401 the interpreter
returns a non-nil error; when a body is present (`ContentLength > 0`) and
decodes, the error message joins — comma-separated, in this fixed order —
the status, then the `id`, `code`, `message` and nested `errors` fields,
each omitted when empty; when no body is present only the status appears;
and when a present body fails to decode the error instead carries the raw
body text together with the status. -/
theorem handleReceiverResponse_failure_message (resp : HttpResponse)
    (h200 : resp.statusCode ≠ 200) (h204 : resp.statusCode ≠ 204)
    (h401 : resp.statusCode ≠ 401) :
    (handleReceiverResponse resp).1 ≠ none
    ∧ (0 < resp.contentLength → resp.decoded = none →
        (handleReceiverResponse resp).1 =
          some (SendError.decodeFailure resp.status resp.bodyRaw))
    ∧ (∀ r : ReceiverErrorResponse,
        0 < resp.contentLength → resp.decoded = some r →
        (handleReceiverResponse resp).1 =
          some (SendError.failedSending
            ("failed sending data: " ++
              String.intercalate ", "
                (["status: " ++ resp.status] ++
                  (if 0 < r.core.id.length then ["id: " ++ r.core.id]
                   else []) ++
                  (if 0 < r.core.code.length then ["code: " ++ r.core.code]
                   else []) ++
                  (if 0 < r.core.message.length
                   then ["message: " ++ r.core.message] else []) ++
                  (if 0 < r.errors.length
                   then ["errors: " ++ errorsRepr r.errors] else [])))))
    ∧ (¬ 0 < resp.contentLength →
        (handleReceiverResponse resp).1 =
          some (SendError.failedSending
            ("failed sending data: " ++ ("status: " ++ resp.status)))) := by
  have hnot2xx : ¬ (resp.statusCode = 200 ∨ resp.statusCode = 204) := by
    rintro (hh | hh)
    · exact h200 hh
    · exact h204 hh
  have h1 : ¬(resp.contentLength = 0 ∧
      (resp.statusCode = 200 ∨ resp.statusCode = 204)) :=
    fun hh => hnot2xx hh.2
  refine ⟨?_, ?_, ?_, ?_⟩
  · unfold handleReceiverResponse
    rw [if_neg h1, if_neg hnot2xx, if_neg h401]
    cases hd : (if 0 < resp.contentLength then resp.decoded
        else some zeroErrorResponse) <;> simp [hd]
  · intro hc hdec
    unfold handleReceiverResponse
    rw [if_neg h1, if_neg hnot2xx, if_neg h401, if_pos hc, hdec]
  · intro r hc hdec
    unfold handleReceiverResponse
    rw [if_neg h1, if_neg hnot2xx, if_neg h401, if_pos hc, hdec]
    simp [receiverErrorMsgs]
  · intro hc
    unfold handleReceiverResponse
    rw [if_neg h1, if_neg hnot2xx, if_neg h401, if_neg hc]
    simp [receiverErrorMsgs, zeroErrorResponse, String.intercalate,
      String.intercalate.go]

/-- Witness for C6 at a concrete 404 response with an undecodable body. -/
theorem handleReceiverResponse_failure_message_witness :
    ((404 : Nat) ≠ 200) ∧ ((404 : Nat) ≠ 204) ∧ ((404 : Nat) ≠ 401) ∧
    (handleReceiverResponse
      { statusCode := 404, status := "404 Not Found", contentLength := 2,
        bodyRaw := "xx", decoded := none }).1 =
      some (SendError.decodeFailure "404 Not Found" "xx") :=
  ⟨by decide, by decide, by decide,
   (handleReceiverResponse_failure_message
     { statusCode := 404, status := "404 Not Found", contentLength := 2,
       bodyRaw := "xx", decoded := none }
     (by decide) (by decide) (by decide)).2.1 (by decide) rfl⟩

/-! ## C7 -/

/-- C7: the metadata string rendering excludes the three reserved source
keys and skips entries whose value renders empty — rendering any attribute
map equals rendering its restriction to the kept entries (`fieldsKeep`:
non-reserved key, non-empty value) — and on the concrete attributes
`{"b": "2", "a": "1", "c": ""}` the sanitized, ascending-sorted,
`", "`-joined result is exactly `"a=1, b=2"`. -/
theorem fieldsString_reserved_and_example :
    fieldsString [("b", "2"), ("a", "1"), ("c", "")] = "a=1, b=2"
    ∧ (∀ attrs : List (String × String),
        fieldsString attrs = fieldsString (attrs.filter fieldsKeep)) := by
  constructor
  · decide
  · intro attrs
    unfold fieldsString renderedFields
    suffices hsuff : ∀ (l : List (String × String)) (acc : List String),
        l.foldl fieldsStep acc = (l.filter fieldsKeep).foldl fieldsStep acc by
      rw [hsuff]
    intro l
    induction l with
    | nil => intro acc; rfl
    | cons kv rest ih =>
      intro acc
      by_cases hk : fieldsKeep kv = true
      · rw [List.filter_cons, if_pos hk, List.foldl_cons, List.foldl_cons, ih]
      · have hskip : fieldsStep acc kv = acc := by
          unfold fieldsKeep at hk
          unfold fieldsStep
          split_ifs at hk ⊢ with hres hempty
          · rfl
          · rfl
          · exact absurd rfl hk
        rw [List.filter_cons, if_neg hk, List.foldl_cons, hskip]
        exact ih acc

/-! ## C8 -/

/-- C8: while the buffer stays strictly below the hard cap `maxBufferSize`,
a push only appends: it returns an empty dropped list, a nil error and makes
no network call; the insertion that makes the buffer reach the cap triggers
an immediate synchronous drain (`sendLogs` of the full buffer) before
returning, and the buffer is cleared to empty. -/
theorem batchLog_autodrain {α : Type} (m : Nat) (net : Nat → Bool)
    (fmt : α → Except String String) (logBuffer : List α) (log : α) :
    (logBuffer.length + 1 < maxBufferSize →
      batchLog m net fmt logBuffer log = (logBuffer ++ [log], [], none, []))
    ∧ (maxBufferSize ≤ logBuffer.length + 1 →
      batchLog m net fmt logBuffer log =
        ([], (sendLogs m net fmt (logBuffer ++ [log])).droppedRecords,
         (drainResult (sendLogs m net fmt (logBuffer ++ [log]))).2,
         (sendLogs m net fmt (logBuffer ++ [log])).sends)) := by
  constructor
  · intro h
    have hn : ¬ maxBufferSize ≤ (logBuffer ++ [log]).length := by
      rw [List.length_append]
      simpa using Nat.not_le_of_lt h
    unfold batchLog
    rw [if_neg hn]
  · intro h
    have hy : maxBufferSize ≤ (logBuffer ++ [log]).length := by
      rw [List.length_append]
      simpa using h
    unfold batchLog
    rw [if_pos hy]
    rfl

/-- Witness for C8: pushing onto an empty buffer is far below the cap and
performs no drain. -/
theorem batchLog_autodrain_witness :
    ([] : List Nat).length + 1 < maxBufferSize ∧
    batchLog 10 (fun _ => true)
        (fun _ : Nat => (Except.ok "x" : Except String String)) [] 7 =
      ([7], [], none, []) :=
  ⟨by decide,
   (batchLog_autodrain 10 (fun _ => true) (fun _ => Except.ok "x") [] 7).1
     (by decide)⟩

/-! ## C9: drop attribution across a drain -/

/-- A loop iteration whose record fails to format drops that record alone
and records the failure. -/
theorem drainStep_fmtError {α : Type} (m : Nat) (net : Nat → Bool)
    (fmt : α → Except String String) (st : DrainState α) (r : α) (e : String)
    (h : fmt r = Except.error e) :
    drainStep m net fmt st r =
      { st with
        droppedRecords := st.droppedRecords ++ [r],
        errs := st.errs ++ [e],
        fmtFailed := st.fmtFailed ++ [r] } := by
  simp [drainStep, h]

/-- A loop iteration that appends below the threshold only grows the body
and the accumulating set. -/
theorem drainStep_ok_noflush {α : Type} (m : Nat) (net : Nat → Bool)
    (fmt : α → Except String String) (st : DrainState α) (r : α)
    (line : String) (h : fmt r = Except.ok line)
    (hc : ¬(0 < st.body.length ∧ m ≤ st.body.length + line.length)) :
    drainStep m net fmt st r =
      { st with
        body := (if 0 < st.body.length then st.body ++ "\n" else st.body)
          ++ line,
        currentRecords := st.currentRecords ++ [r] } := by
  simp [drainStep, h, appendAndSend_eq, hc]

/-- A loop iteration that crosses the threshold transmits the accumulated
body: the send is recorded with the accumulated group; on a failed call all
of `currentRecords` moves to the dropped list; either way the accumulating
set resets to just the current record. -/
theorem drainStep_ok_flush {α : Type} (m : Nat) (net : Nat → Bool)
    (fmt : α → Except String String) (st : DrainState α) (r : α)
    (line : String) (h : fmt r = Except.ok line)
    (hc : 0 < st.body.length ∧ m ≤ st.body.length + line.length) :
    drainStep m net fmt st r =
      { st with
        body := line,
        errs := if net st.sends.length then st.errs
          else st.errs ++ ["send failed"],
        droppedRecords := if net st.sends.length then st.droppedRecords
          else st.droppedRecords ++ st.currentRecords,
        currentRecords := [r],
        sends := st.sends ++
          [(st.currentRecords, st.body, net st.sends.length)] } := by
  cases hn : net st.sends.length <;>
    simp [drainStep, h, appendAndSend_eq, hc, hn]

/-- A loop iteration whose record formats successfully leaves the recorded
format failures unchanged. -/
theorem drainStep_ok_fmtFailed {α : Type} (m : Nat) (net : Nat → Bool)
    (fmt : α → Except String String) (st : DrainState α) (r : α)
    (line : String) (h : fmt r = Except.ok line) :
    (drainStep m net fmt st r).fmtFailed = st.fmtFailed := by
  simp [drainStep, h]

/-- Membership in a transmitted group implies membership in the tracked
records. -/
theorem mem_tracked_of_mem_group {α : Type} {st : DrainState α}
    {p : List α × String × Bool} {x : α} (hp : p ∈ st.sends) (hx : x ∈ p.1) :
    x ∈ tracked st := by
  unfold tracked
  have hmem : x ∈ (st.sends.map fun p => p.1).flatten :=
    List.mem_flatten.mpr ⟨p.1, List.mem_map_of_mem _ hp, hx⟩
  exact List.mem_append.mpr (Or.inl (List.mem_append.mpr (Or.inr hmem)))

/-- Membership in the accumulating set implies membership in the tracked
records. -/
theorem mem_tracked_of_mem_current {α : Type} {st : DrainState α} {x : α}
    (hx : x ∈ st.currentRecords) : x ∈ tracked st := by
  unfold tracked
  exact List.mem_append.mpr (Or.inr hx)

/-- Membership in the format failures implies membership in the tracked
records. -/
theorem mem_tracked_of_mem_fmtFailed {α : Type} {st : DrainState α} {x : α}
    (hx : x ∈ st.fmtFailed) : x ∈ tracked st := by
  unfold tracked
  exact List.mem_append.mpr (Or.inl (List.mem_append.mpr (Or.inl hx)))

/-- Adding a format failure (to both the dropped list and the failure list)
preserves the exact-drop characterization. -/
theorem dropExact_fmtFail_aux {α : Type} {D F : List α}
    {S : List (List α × String × Bool)} {r : α}
    (h : ∀ x, x ∈ D ↔ (x ∈ F ∨ ∃ p ∈ S, p.2.2 = false ∧ x ∈ p.1)) :
    ∀ x, x ∈ D ++ [r] ↔
      (x ∈ F ++ [r] ∨ ∃ p ∈ S, p.2.2 = false ∧ x ∈ p.1) := by
  intro x
  rw [List.mem_append, List.mem_append, h x]
  constructor
  · rintro ((hF | hex) | hxr)
    · exact Or.inl (Or.inl hF)
    · exact Or.inr hex
    · exact Or.inl (Or.inr hxr)
  · rintro ((hF | hxr) | hex)
    · exact Or.inl (Or.inl hF)
    · exact Or.inr hxr
    · exact Or.inl (Or.inr hex)

/-- Recording one transmission of the group `C` (dropping `C` exactly when
the call failed) preserves the exact-drop characterization. -/
theorem dropExact_send_aux {α : Type} {D F C : List α}
    {S : List (List α × String × Bool)} {b : String} {ok : Bool}
    (h : ∀ x, x ∈ D ↔ (x ∈ F ∨ ∃ p ∈ S, p.2.2 = false ∧ x ∈ p.1)) :
    ∀ x, x ∈ (if ok = true then D else D ++ C) ↔
      (x ∈ F ∨ ∃ p ∈ S ++ [(C, b, ok)], p.2.2 = false ∧ x ∈ p.1) := by
  intro x
  cases ok
  · rw [if_neg (by decide), List.mem_append, h x]
    constructor
    · rintro ((hF | ⟨p, hp, hfail, hxp⟩) | hC)
      · exact Or.inl hF
      · exact Or.inr ⟨p, List.mem_append.mpr (Or.inl hp), hfail, hxp⟩
      · exact Or.inr ⟨(C, b, false),
          List.mem_append.mpr (Or.inr (List.mem_singleton.mpr rfl)), rfl, hC⟩
    · rintro (hF | ⟨p, hp, hfail, hxp⟩)
      · exact Or.inl (Or.inl hF)
      · rcases List.mem_append.mp hp with hpS | hpq
        · exact Or.inl (Or.inr ⟨p, hpS, hfail, hxp⟩)
        · have hpe : p = (C, b, false) := List.mem_singleton.mp hpq
          subst hpe
          exact Or.inr hxp
  · rw [if_pos rfl, h x]
    constructor
    · rintro (hF | ⟨p, hp, hfail, hxp⟩)
      · exact Or.inl hF
      · exact Or.inr ⟨p, List.mem_append.mpr (Or.inl hp), hfail, hxp⟩
    · rintro (hF | ⟨p, hp, hfail, hxp⟩)
      · exact Or.inl hF
      · rcases List.mem_append.mp hp with hpS | hpq
        · exact Or.inr ⟨p, hpS, hfail, hxp⟩
        · have hpe : p = (C, b, true) := List.mem_singleton.mp hpq
          subst hpe
          simp at hfail

/-- Adding a format failure to the dropped list never drops a record of a
successfully transmitted group, provided the failing record is in no
transmitted group. -/
theorem sentNotDropped_fmtFail_aux {α : Type} {D : List α}
    {S : List (List α × String × Bool)} {r : α}
    (h3 : ∀ p ∈ S, p.2.2 = true → ∀ x ∈ p.1, x ∉ D)
    (hr : ∀ p ∈ S, r ∉ p.1) :
    ∀ p ∈ S, p.2.2 = true → ∀ x ∈ p.1, x ∉ D ++ [r] := by
  intro p hp htrue x hxp hmem
  rcases List.mem_append.mp hmem with hD | hxr
  · exact h3 p hp htrue x hxp hD
  · have hxe : x = r := List.mem_singleton.mp hxr
    subst hxe
    exact hr p hp hxp

/-- Recording one transmission of the group `C` never drops a record of a
successfully transmitted group, provided `C` is disjoint from the format
failures and from the earlier groups. -/
theorem sentNotDropped_send_aux {α : Type} {D F C : List α}
    {S : List (List α × String × Bool)} {b : String} {ok : Bool}
    (h1 : ∀ x, x ∈ D ↔ (x ∈ F ∨ ∃ p ∈ S, p.2.2 = false ∧ x ∈ p.1))
    (h3 : ∀ p ∈ S, p.2.2 = true → ∀ x ∈ p.1, x ∉ D)
    (hCF : ∀ x ∈ C, x ∉ F)
    (hCG : ∀ x ∈ C, x ∉ (S.map fun p => p.1).flatten) :
    ∀ p ∈ S ++ [(C, b, ok)], p.2.2 = true → ∀ x ∈ p.1,
      x ∉ (if ok = true then D else D ++ C) := by
  intro p hp htrue x hxp
  rcases List.mem_append.mp hp with hpS | hpq
  · have hxD : x ∉ D := h3 p hpS htrue x hxp
    have hxG : x ∈ (S.map fun q => q.1).flatten :=
      List.mem_flatten.mpr ⟨p.1, List.mem_map_of_mem _ hpS, hxp⟩
    cases ok
    · rw [if_neg (by decide)]
      intro hmem
      rcases List.mem_append.mp hmem with hD | hC
      · exact hxD hD
      · exact hCG x hC hxG
    · rw [if_pos rfl]
      exact hxD
  · have hpe : p = (C, b, ok) := List.mem_singleton.mp hpq
    subst hpe
    rw [if_pos htrue]
    intro hxD
    rcases (h1 x).mp hxD with hF | ⟨q, hq, hfail, hxq⟩
    · exact hCF x hxp hF
    · exact hCG x hxp
        (List.mem_flatten.mpr ⟨q.1, List.mem_map_of_mem _ hq, hxq⟩)

/-- One loop iteration preserves the exact-drop characterization. -/
theorem drainStep_dropExact {α : Type} (m : Nat) (net : Nat → Bool)
    (fmt : α → Except String String) (st : DrainState α) (r : α)
    (h : DropExact st) : DropExact (drainStep m net fmt st r) := by
  cases hf : fmt r with
  | error e =>
    rw [drainStep_fmtError m net fmt st r e hf]
    exact dropExact_fmtFail_aux h
  | ok line =>
    by_cases hc : 0 < st.body.length ∧ m ≤ st.body.length + line.length
    · rw [drainStep_ok_flush m net fmt st r line hf hc]
      exact dropExact_send_aux h
    · rw [drainStep_ok_noflush m net fmt st r line hf hc]
      exact h

/-- The trailing flush preserves the exact-drop characterization. -/
theorem drainFinish_dropExact {α : Type} (net : Nat → Bool)
    (st : DrainState α) (h : DropExact st) :
    DropExact (drainFinish net st) := by
  unfold drainFinish
  by_cases hb : 0 < st.body.length
  · rw [if_pos hb]
    exact dropExact_send_aux h
  · rw [if_neg hb]
    exact h

/-- One loop iteration never drops a record of a successfully transmitted
group, given that the tracked records are duplicate-free and the incoming
record is fresh. -/
theorem drainStep_sentNotDropped {α : Type} (m : Nat) (net : Nat → Bool)
    (fmt : α → Except String String) (st : DrainState α) (r : α)
    (h1 : DropExact st) (h3 : SentNotDropped st)
    (hnd : (tracked st).Nodup) (hr : r ∉ tracked st) :
    SentNotDropped (drainStep m net fmt st r) := by
  have hsplit := List.nodup_append.mp (by simpa [tracked] using hnd)
  have hCF : ∀ x ∈ st.currentRecords, x ∉ st.fmtFailed := by
    intro x hxC hxF
    exact hsplit.2.2 hxF (List.mem_append.mpr (Or.inr hxC))
  have hCG : ∀ x ∈ st.currentRecords,
      x ∉ (st.sends.map fun p => p.1).flatten := by
    intro x hxC hxG
    exact (List.nodup_append.mp hsplit.2.1).2.2 hxG hxC
  cases hf : fmt r with
  | error e =>
    rw [drainStep_fmtError m net fmt st r e hf]
    exact sentNotDropped_fmtFail_aux h3
      (fun p hp hxp => hr (mem_tracked_of_mem_group hp hxp))
  | ok line =>
    by_cases hc : 0 < st.body.length ∧ m ≤ st.body.length + line.length
    · rw [drainStep_ok_flush m net fmt st r line hf hc]
      exact sentNotDropped_send_aux h1 h3 hCF hCG
    · rw [drainStep_ok_noflush m net fmt st r line hf hc]
      exact h3

/-- The trailing flush never drops a record of a successfully transmitted
group, given that the tracked records are duplicate-free. -/
theorem drainFinish_sentNotDropped {α : Type} (net : Nat → Bool)
    (st : DrainState α) (h1 : DropExact st) (h3 : SentNotDropped st)
    (hnd : (tracked st).Nodup) :
    SentNotDropped (drainFinish net st) := by
  have hsplit := List.nodup_append.mp (by simpa [tracked] using hnd)
  have hCF : ∀ x ∈ st.currentRecords, x ∉ st.fmtFailed := by
    intro x hxC hxF
    exact hsplit.2.2 hxF (List.mem_append.mpr (Or.inr hxC))
  have hCG : ∀ x ∈ st.currentRecords,
      x ∉ (st.sends.map fun p => p.1).flatten := by
    intro x hxC hxG
    exact (List.nodup_append.mp hsplit.2.1).2.2 hxG hxC
  unfold drainFinish
  by_cases hb : 0 < st.body.length
  · rw [if_pos hb]
    exact sentNotDropped_send_aux h1 h3 hCF hCG
  · rw [if_neg hb]
    exact h3

/-- One loop iteration adds exactly the incoming record to the tracked
records, up to permutation. -/
theorem drainStep_tracked_perm {α : Type} [DecidableEq α] (m : Nat)
    (net : Nat → Bool) (fmt : α → Except String String) (st : DrainState α)
    (r : α) :
    (tracked (drainStep m net fmt st r)).Perm (tracked st ++ [r]) := by
  cases hf : fmt r with
  | error e =>
    rw [drainStep_fmtError m net fmt st r e hf, List.perm_iff_count]
    intro a
    simp only [tracked, List.count_append, List.map_append, List.map_cons,
      List.map_nil, List.flatten_append, List.flatten_cons, List.flatten_nil,
      List.append_nil]
    omega
  | ok line =>
    by_cases hc : 0 < st.body.length ∧ m ≤ st.body.length + line.length
    · rw [drainStep_ok_flush m net fmt st r line hf hc, List.perm_iff_count]
      intro a
      simp only [tracked, List.count_append, List.map_append, List.map_cons,
        List.map_nil, List.flatten_append, List.flatten_cons, List.flatten_nil,
        List.append_nil]
      omega
    · rw [drainStep_ok_noflush m net fmt st r line hf hc,
        List.perm_iff_count]
      intro a
      simp only [tracked, List.count_append, List.map_append, List.map_cons,
        List.map_nil, List.flatten_append, List.flatten_cons, List.flatten_nil,
        List.append_nil]
      omega

/-- The whole loop preserves the exact-drop characterization, the
successful-group property, and duplicate-freedom of the tracked records. -/
theorem foldl_drain_master {α : Type} [DecidableEq α] (m : Nat)
    (net : Nat → Bool) (fmt : α → Except String String)
    (records : List α) :
    ∀ st : DrainState α, DropExact st → SentNotDropped st →
      (tracked st ++ records).Nodup →
      DropExact (records.foldl (drainStep m net fmt) st)
      ∧ SentNotDropped (records.foldl (drainStep m net fmt) st)
      ∧ (tracked (records.foldl (drainStep m net fmt) st)).Nodup := by
  induction records with
  | nil =>
    intro st h1 h3 hnd
    exact ⟨h1, h3, by simpa using hnd⟩
  | cons r rs ih =>
    intro st h1 h3 hnd
    have hnd' : ((tracked st ++ [r]) ++ rs).Nodup := by
      simpa [List.append_assoc] using hnd
    have hndt : (tracked st).Nodup :=
      (List.nodup_append.mp (List.nodup_append.mp hnd').1).1
    have hr : r ∉ tracked st := by
      intro hmem
      exact (List.nodup_append.mp hnd).2.2 hmem (List.mem_cons_self r rs)
    have hstep1 := drainStep_dropExact m net fmt st r h1
    have hstep3 := drainStep_sentNotDropped m net fmt st r h1 h3 hndt hr
    have hperm := drainStep_tracked_perm m net fmt st r
    have hndstep : (tracked (drainStep m net fmt st r) ++ rs).Nodup :=
      (hperm.append_right rs).symm.nodup hnd'
    exact ih _ hstep1 hstep3 hndstep

/-- The loop collects exactly the format failures, in order. -/
theorem foldl_drain_fmtFailed {α : Type} (m : Nat) (net : Nat → Bool)
    (fmt : α → Except String String) (records : List α) :
    ∀ st : DrainState α,
      (records.foldl (drainStep m net fmt) st).fmtFailed =
        st.fmtFailed ++ records.filter (fmtFails fmt) := by
  induction records with
  | nil =>
    intro st
    simp
  | cons r rs ih =>
    intro st
    cases hf : fmt r with
    | error e =>
      have hkeep : fmtFails fmt r = true := by simp [fmtFails, hf]
      rw [List.foldl_cons, ih, drainStep_fmtError m net fmt st r e hf,
        List.filter_cons, if_pos hkeep]
      simp
    | ok line =>
      have hkeep : ¬ fmtFails fmt r = true := by simp [fmtFails, hf]
      rw [List.foldl_cons, ih, drainStep_ok_fmtFailed m net fmt st r line hf,
        List.filter_cons, if_neg hkeep]

/-- The trailing flush does not change the recorded format failures. -/
theorem drainFinish_fmtFailed {α : Type} (net : Nat → Bool)
    (st : DrainState α) : (drainFinish net st).fmtFailed = st.fmtFailed := by
  unfold drainFinish
  split_ifs <;> rfl

/-- C9: for a drain over duplicate-free records, a record is reported
dropped iff its formatting failed or it was accumulated into a transmitted
body whose network call failed (so on a failed flush exactly the accumulated
group is added to the dropped list); records accumulated into a successfully
transmitted body are never reported dropped; and the format failures are
exactly the records whose formatter errs, in order. -/
theorem sendLogs_drop_attribution {α : Type} [DecidableEq α] (m : Nat)
    (net : Nat → Bool) (fmt : α → Except String String) (records : List α)
    (hnd : records.Nodup) :
    (∀ r, r ∈ (sendLogs m net fmt records).droppedRecords ↔
       (r ∈ (sendLogs m net fmt records).fmtFailed ∨
        ∃ p ∈ (sendLogs m net fmt records).sends, p.2.2 = false ∧ r ∈ p.1))
    ∧ (∀ p ∈ (sendLogs m net fmt records).sends, p.2.2 = true →
        ∀ r ∈ p.1, r ∉ (sendLogs m net fmt records).droppedRecords)
    ∧ (sendLogs m net fmt records).fmtFailed =
        records.filter (fmtFails fmt) := by
  have hinit : (tracked (initDrain : DrainState α) ++ records).Nodup := by
    simpa [tracked, initDrain] using hnd
  have h1 : DropExact (initDrain : DrainState α) := by
    intro r
    simp [initDrain]
  have h3 : SentNotDropped (initDrain : DrainState α) := by
    intro p hp
    simp [initDrain] at hp
  obtain ⟨hA, hB, hC⟩ :=
    foldl_drain_master m net fmt records initDrain h1 h3 hinit
  refine ⟨?_, ?_, ?_⟩
  · show DropExact (sendLogs m net fmt records)
    unfold sendLogs
    exact drainFinish_dropExact net _ hA
  · show SentNotDropped (sendLogs m net fmt records)
    unfold sendLogs
    exact drainFinish_sentNotDropped net _ hA hB hC
  · unfold sendLogs
    rw [drainFinish_fmtFailed, foldl_drain_fmtFailed]
    simp [initDrain]

/-- Witness for C9 at a concrete three-record drain whose middle record
fails to format and whose network calls all fail. -/
theorem sendLogs_drop_attribution_witness :
    ([0, 1, 2] : List Nat).Nodup ∧
    (1 ∈ (sendLogs 1 (fun _ => false)
        (fun n : Nat => if n = 1 then Except.error "e"
          else (Except.ok "x" : Except String String)) [0, 1, 2]).droppedRecords
      ↔ (1 ∈ (sendLogs 1 (fun _ => false)
          (fun n : Nat => if n = 1 then Except.error "e"
            else (Except.ok "x" : Except String String)) [0, 1, 2]).fmtFailed ∨
         ∃ p ∈ (sendLogs 1 (fun _ => false)
            (fun n : Nat => if n = 1 then Except.error "e"
              else (Except.ok "x" : Except String String)) [0, 1, 2]).sends,
            p.2.2 = false ∧ 1 ∈ p.1)) :=
  ⟨by decide,
   (sendLogs_drop_attribution 1 (fun _ => false)
     (fun n : Nat => if n = 1 then Except.error "e" else Except.ok "x")
     [0, 1, 2] (by decide)).1 1⟩

end Sumo
